import Mathlib

/-!
Shallow embedding of the room-presence and message-lifecycle engine of the
E2EE-CHAT repository (src/app.py, src/models.py).

Time is modelled as `Nat` milliseconds since the epoch.  Python's in-memory
maps `users` (sid → username) and `rooms_users` (room → set of usernames)
are modelled as association lists; Python sets become duplicate-free lists
maintained by membership-checked insertion, exactly as the code checks
membership before adding.  SQLAlchemy rows of `Message` become a `Message`
structure stored in a list; a column with no default (the `timestamp`
column of models.py) is an `Option` that the embedded constructor leaves
`none` when the code does not assign it.
-/

namespace E2EE

/-- Denylist of `is_content_safe` (app.py line 24). -/
def unsafe_keywords : List String := ["malware", "phishing", "virus", "hack", "abuse"]

/-- `sub` occurs as a contiguous substring of `s` (Python's `kw in text`). -/
def listContains : List Char → List Char → Bool
  | [], sub => sub.isEmpty
  | c :: t, sub => sub.isPrefixOf (c :: t) || listContains t sub

/-- Character-wise lowercase of a string (Python's `.lower()` on the ASCII
denylist comparisons). -/
def lowerChars (s : String) : List Char := s.data.map Char.toLower

/-- `is_content_safe(text)` of app.py: true iff no denylisted keyword occurs
in the lowercased text. -/
def is_content_safe (text : String) : Bool :=
  !(unsafe_keywords.any fun kw => listContains (lowerChars text) kw.data)

/-- The `Message` row of models.py.  `timestamp` mirrors the
`db.Column(db.DateTime)` column, which has no default and is nullable. -/
structure Message where
  id : Nat
  room : String
  username : String
  content : String
  file_url : Option String
  file_name : Option String
  timestamp : Option Nat
  expires_at : Option Nat
  delivered : Bool
  read : Bool
  readers : List String
  delete_on_read : Bool
  require_all_read : Bool
deriving DecidableEq

/-- Outbound socket events emitted by the handlers. -/
inductive Event where
  | delete_message (id : Nat) (room : String)
  | message_read (id : Nat) (room : String)
  | message_evt (id : Nat) (room : String) (user : String)
  | message_rejected (reason : String)
  | status (room : String) (msg : String)
  | online_users (room : String) (roster : List String)
deriving DecidableEq

abbrev Sid := Nat

/-- Lookup in the `users` map (`users.get(sid)`). -/
def lookupSid (users : List (Sid × String)) (sid : Sid) : Option String :=
  (users.find? (fun p => p.1 == sid)).map (·.2)

/-- Assignment `users[sid] = username`. -/
def setSid (users : List (Sid × String)) (sid : Sid) (u : String) :
    List (Sid × String) :=
  if users.any (fun p => p.1 == sid) then
    users.map (fun p => if p.1 == sid then (sid, u) else p)
  else users ++ [(sid, u)]

/-- `users.pop(sid, None)` (the returned value is not modelled here). -/
def removeSid (users : List (Sid × String)) (sid : Sid) : List (Sid × String) :=
  users.filter (fun p => p.1 != sid)

/-- `rooms_users.get(room, set())`. -/
def rosterOf (rooms : List (String × List String)) (room : String) :
    List String :=
  ((rooms.find? (fun p => p.1 == room)).map (·.2)).getD []

/-- Assignment `rooms_users[room] = r`. -/
def setRoster (rooms : List (String × List String)) (room : String)
    (r : List String) : List (String × List String) :=
  if rooms.any (fun p => p.1 == room) then
    rooms.map (fun p => if p.1 == room then (room, r) else p)
  else rooms ++ [(room, r)]

/-- The server's mutable state: the Message table, the two in-memory socket
maps, the RoomJoin table (room, username, join_time) and the id counter. -/
structure ServerState where
  messages : List Message
  users : List (Sid × String)
  rooms_users : List (String × List String)
  room_joins : List (String × String × Nat)
  next_id : Nat
deriving DecidableEq

/-- Upsert of the RoomJoin row in `on_join`. -/
def upsertJoin (joins : List (String × String × Nat)) (room u : String)
    (now : Nat) : List (String × String × Nat) :=
  if joins.any (fun j => j.1 == room && j.2.1 == u) then
    joins.map (fun j => if j.1 == room && j.2.1 == u then (room, u, now) else j)
  else joins ++ [(room, u, now)]

/-- `Message.query.get(msg_id)`. -/
def findMsg (msgs : List Message) (i : Nat) : Option Message :=
  msgs.find? (fun m => m.id == i)

/-- `db.session.delete(msg)` for the row with this id. -/
def removeMsg (msgs : List Message) (i : Nat) : List Message :=
  msgs.filter (fun m => m.id != i)

/-- Persisting a mutated row: replace the row with the same id. -/
def updateMsg (msgs : List Message) (m : Message) : List Message :=
  msgs.map (fun x => if x.id == m.id then m else x)

/-- Expiry normalisation of `handle_message` (app.py lines 353-361):
`if expires_at_ms:` is Python truthiness, so a supplied value of 0 leaves
`expires_at = None`; a non-zero past-or-present instant is clamped to
now + 1 second (1000 ms). -/
def computeExpiry (expires_at_ms : Option Nat) (now : Nat) : Option Nat :=
  match expires_at_ms with
  | none => none
  | some v =>
    if v == 0 then none
    else if decide (v ≤ now) then some (now + 1000) else some v

/-- `plaintext and not is_content_safe(plaintext)` of app.py line 364:
an absent or empty plaintext is falsy and skips the safety check. -/
def plaintextUnsafe (pt : Option String) : Bool :=
  match pt with
  | none => false
  | some s => (!(s == "")) && !(is_content_safe s)

/-- The `message` handler (app.py lines 342-400).  Returns the new state and
the emitted events.  Note the `Message(...)` constructor passes no
`timestamp`, so the persisted row's `timestamp` is `none`, as in the code. -/
def handle_message (st : ServerState) (sid : Sid) (room : String)
    (content : String) (expires_at_ms : Option Nat) (dor rar : Bool)
    (plaintext : Option String) (file_url file_name : Option String)
    (now : Nat) : ServerState × List Event :=
  let username := (lookupSid st.users sid).getD "Unknown"
  let expires_at := computeExpiry expires_at_ms now
  if plaintextUnsafe plaintext then
    (st, [Event.message_rejected "Message contains unsafe content"])
  else
    let msg : Message :=
      { id := st.next_id, room := room, username := username,
        content := content, file_url := file_url, file_name := file_name,
        timestamp := none, expires_at := expires_at, delivered := true,
        read := false, readers := [], delete_on_read := dor,
        require_all_read := rar }
    ({ st with messages := st.messages ++ [msg], next_id := st.next_id + 1 },
     [Event.message_evt msg.id room username])

/-- app.py lines 410-414: append the acknowledging username to `readers`
when absent (no author exclusion). -/
def recordReader (msg : Message) (u : String) : Message :=
  if msg.readers.contains u then msg
  else { msg with readers := msg.readers ++ [u] }

/-- app.py lines 431-434: set `read = True` and emit `message_read` when the
flag was false. -/
def readFlag (st : ServerState) (msg : Message) : ServerState × List Event :=
  if msg.read then (st, [])
  else
    ({ st with messages := updateMsg st.messages { msg with read := true } },
     [Event.message_read msg.id msg.room])

/-- The `message_seen` handler (app.py lines 402-434). -/
def message_seen (st : ServerState) (sid : Sid) (msg_id : Nat) :
    ServerState × List Event :=
  let username := (lookupSid st.users sid).getD "Unknown"
  match findMsg st.messages msg_id with
  | none => (st, [])
  | some msg0 =>
    let msg := recordReader msg0 username
    let st1 :=
      if msg0.readers.contains username then st
      else { st with messages := updateMsg st.messages msg }
    if msg.delete_on_read then
      if msg.require_all_read then
        let roster := rosterOf st1.rooms_users msg.room
        if !roster.isEmpty &&
            roster.all (fun x => msg.readers.contains x || x == msg.username)
        then
          ({ st1 with messages := removeMsg st1.messages msg_id },
           [Event.delete_message msg_id msg.room])
        else readFlag st1 msg
      else
        if username == msg.username then readFlag st1 msg
        else
          ({ st1 with messages := removeMsg st1.messages msg_id },
           [Event.delete_message msg_id msg.room])
    else readFlag st1 msg

/-- The `/messages/read/<id>` route (app.py lines 259-267): sets `read`
unconditionally and emits `message_read`, without touching `readers`. -/
def mark_read (st : ServerState) (msg_id : Nat) : ServerState × List Event :=
  match findMsg st.messages msg_id with
  | none => (st, [])
  | some msg =>
    ({ st with messages := updateMsg st.messages { msg with read := true } },
     [Event.message_read msg.id msg.room])

/-- A row matches the sweeper's filter `expires_at != None ∧ expires_at ≤ now`. -/
def msgExpired (m : Message) (now : Nat) : Bool :=
  match m.expires_at with
  | none => false
  | some e => decide (e ≤ now)

/-- `delete_expired_messages` (app.py lines 59-64): deletes every matching
row and commits.  The function emits no socket events. -/
def delete_expired_messages (st : ServerState) (now : Nat) :
    ServerState × List Event :=
  ({ st with messages := st.messages.filter (fun m => !(msgExpired m now)) }, [])

/-- The `join` handler (app.py lines 290-325), restricted to the state this
model tracks (the User-table upsert only touches the out-of-scope User rows). -/
def on_join (st : ServerState) (sid : Sid) (username room : String)
    (now : Nat) : ServerState × List Event :=
  if username == "" || room == "" then (st, [])
  else
    let joins := upsertJoin st.room_joins room username now
    let users1 := setSid st.users sid username
    let prev := rosterOf st.rooms_users room
    let already_in_room := prev.contains username
    let newRoster := if already_in_room then prev else prev ++ [username]
    let rooms1 := setRoster st.rooms_users room newRoster
    ({ st with room_joins := joins, users := users1, rooms_users := rooms1 },
     (if already_in_room then []
      else [Event.status room (username ++ " has entered the room.")])
       ++ [Event.online_users room newRoster])

/-- The `leave` handler (app.py lines 327-341).  `users.pop(request.sid)`
is unconditional: the sid→username binding is dropped regardless of which
room is being left. -/
def on_leave (st : ServerState) (sid : Sid) (username room : String) :
    ServerState × List Event :=
  if username == "" || room == "" then (st, [])
  else
    let users1 := removeSid st.users sid
    let prev := rosterOf st.rooms_users room
    if prev.contains username then
      let newRoster := prev.filter (fun x => x != username)
      ({ st with users := users1,
                 rooms_users := setRoster st.rooms_users room newRoster },
       [Event.online_users room newRoster,
        Event.status room (username ++ " has left the room.")])
    else
      ({ st with users := users1 }, [])

/-- A sample ephemeral message (delete_on_read, not require_all_read),
authored by alice, unread, no readers. -/
def sampleMsg : Message :=
  { id := 1, room := "r", username := "alice", content := "c",
    file_url := none, file_name := none, timestamp := none,
    expires_at := none, delivered := true, read := false, readers := [],
    delete_on_read := true, require_all_read := false }

/-- A sample server state: one message, alice (sid 7) and bob (sid 8)
online in room "r". -/
def sampleState : ServerState :=
  { messages := [sampleMsg], users := [(7, "alice"), (8, "bob")],
    rooms_users := [("r", ["alice", "bob"])], room_joins := [], next_id := 2 }

/-- The sample message with require_all_read set. -/
def sampleMsgAll : Message := { sampleMsg with require_all_read := true }

/-- A state whose only message requires all-read deletion while the room
roster is empty (nobody online). -/
def sampleStateAll : ServerState :=
  { sampleState with messages := [sampleMsgAll], rooms_users := [] }

/-- A state whose only message requires all-read deletion with alice and
bob online. -/
def sampleStateRoster : ServerState :=
  { sampleState with messages := [sampleMsgAll] }

/-- A non-ephemeral message that expires at instant 50. -/
def sampleMsgExp : Message :=
  { sampleMsg with delete_on_read := false, expires_at := some 50 }

/-- A state holding one expired message. -/
def sampleStateExp : ServerState :=
  { sampleState with messages := [sampleMsgExp] }

/-- An initial state with no messages and nobody online. -/
def sampleState0 : ServerState :=
  { messages := [], users := [], rooms_users := [], room_joins := [],
    next_id := 1 }

/-- A state where alice (sid 7) is a member of rooms "r" and "s". -/
def sampleState2rooms : ServerState :=
  { messages := [], users := [(7, "alice")],
    rooms_users := [("r", ["alice"]), ("s", ["alice"])], room_joins := [],
    next_id := 1 }




lemma findMsg_nil (i : Nat) : findMsg [] i = none := rfl

lemma findMsg_cons (x : Message) (t : List Message) (i : Nat) :
    findMsg (x :: t) i = if x.id == i then some x else findMsg t i := by
  rw [findMsg, findMsg, List.find?]
  by_cases h : (x.id == i) = true <;> simp [h]

lemma rosterOf_nil (room : String) : rosterOf [] room = [] := rfl

lemma rosterOf_cons (x : String × List String)
    (t : List (String × List String)) (room : String) :
    rosterOf (x :: t) room = if x.1 == room then x.2 else rosterOf t room := by
  rw [rosterOf, rosterOf, List.find?]
  by_cases h : (x.1 == room) = true <;> simp [h]

lemma findMsg_id {msgs : List Message} {i : Nat} {m : Message}
    (h : findMsg msgs i = some m) : m.id = i := by
  simpa using List.find?_some h

lemma findMsg_removeMsg (msgs : List Message) (i : Nat) :
    findMsg (removeMsg msgs i) i = none := by
  rw [findMsg, List.find?_eq_none]
  intro a ha
  rw [removeMsg, List.mem_filter] at ha
  simpa using ha.2

lemma findMsg_updateMsg {msgs : List Message} {i : Nat} {m0 : Message}
    (m : Message) (hm : m.id = i) (h : findMsg msgs i = some m0) :
    findMsg (updateMsg msgs m) i = some m := by
  induction msgs with
  | nil => simp [findMsg_nil] at h
  | cons x t ih =>
    by_cases hx : x.id = i
    · have hb : (x.id == m.id) = true := by simp [hx, hm]
      rw [updateMsg, List.map_cons, if_pos hb, findMsg_cons]
      simp [hm]
    · have hb : (x.id == m.id) = false := by simp [hx, hm]
      have hb2 : (x.id == i) = false := by simp [hx]
      rw [findMsg_cons, if_neg (by simp [hb2])] at h
      rw [updateMsg, List.map_cons, if_neg (by simp [hb]), findMsg_cons,
        if_neg (by simp [hb2])]
      exact ih h

lemma contains_append_self (l : List String) (u : String) :
    (l ++ [u]).contains u = true := by simp

@[simp] lemma recordReader_id (m : Message) (u : String) :
    (recordReader m u).id = m.id := by
  rw [recordReader]; split <;> rfl

@[simp] lemma recordReader_room (m : Message) (u : String) :
    (recordReader m u).room = m.room := by
  rw [recordReader]; split <;> rfl

@[simp] lemma recordReader_username (m : Message) (u : String) :
    (recordReader m u).username = m.username := by
  rw [recordReader]; split <;> rfl

@[simp] lemma recordReader_read (m : Message) (u : String) :
    (recordReader m u).read = m.read := by
  rw [recordReader]; split <;> rfl

@[simp] lemma recordReader_dor (m : Message) (u : String) :
    (recordReader m u).delete_on_read = m.delete_on_read := by
  rw [recordReader]; split <;> rfl

@[simp] lemma recordReader_rar (m : Message) (u : String) :
    (recordReader m u).require_all_read = m.require_all_read := by
  rw [recordReader]; split <;> rfl

@[simp] lemma recordReader_contains (m : Message) (u : String) :
    (recordReader m u).readers.contains u = true := by
  rw [recordReader]
  by_cases h : m.readers.contains u = true
  · rw [if_pos h]; exact h
  · rw [if_neg h]; exact contains_append_self m.readers u

lemma lookupSid_removeSid (users : List (Sid × String)) (sid : Sid) :
    lookupSid (removeSid users sid) sid = none := by
  rw [lookupSid, removeSid]
  have h : List.find? (fun p => p.1 == sid)
      (users.filter fun p => p.1 != sid) = none := by
    rw [List.find?_eq_none]
    intro a ha
    rw [List.mem_filter] at ha
    simpa using ha.2
  rw [h]
  rfl

lemma rosterOf_mapRoom (room r' : String) (r : List String)
    (hne : r' ≠ room) :
    ∀ t, rosterOf (t.map fun p => if p.1 == room then (room, r) else p) r'
      = rosterOf t r' := by
  intro t
  induction t with
  | nil => rfl
  | cons x t ih =>
    by_cases hx : x.1 = room
    · have hb : (x.1 == room) = true := by simp [hx]
      have hb2 : (x.1 == r') = false := by simp [hx, Ne.symm hne]
      have hb3 : ((room : String) == r') = false := by simp [Ne.symm hne]
      rw [List.map_cons, if_pos (by simp [hb]), rosterOf_cons, rosterOf_cons,
        if_neg (by simp [hb3]), if_neg (by simp [hb2])]
      exact ih
    · have hb : (x.1 == room) = false := by simp [hx]
      rw [List.map_cons, if_neg (by simp [hb]), rosterOf_cons, rosterOf_cons]
      by_cases hx2 : (x.1 == r') = true
      · rw [if_pos (by simp_all), if_pos (by simp_all)]
      · rw [if_neg (by simp_all), if_neg (by simp_all)]
        exact ih

lemma rosterOf_appendRoom (room r' : String) (r : List String)
    (hne : r' ≠ room) :
    ∀ t, rosterOf (t ++ [(room, r)]) r' = rosterOf t r' := by
  intro t
  induction t with
  | nil =>
    have hb3 : ((room : String) == r') = false := by simp [Ne.symm hne]
    rw [List.nil_append, rosterOf_cons, if_neg (by simp [hb3])]
  | cons x t ih =>
    rw [List.cons_append, rosterOf_cons, rosterOf_cons]
    by_cases hx2 : (x.1 == r') = true
    · rw [if_pos (by simp_all), if_pos (by simp_all)]
    · rw [if_neg (by simp_all), if_neg (by simp_all)]
      exact ih

lemma rosterOf_setRoster_other (room r' : String) (r : List String)
    (hne : r' ≠ room) (rooms : List (String × List String)) :
    rosterOf (setRoster rooms room r) r' = rosterOf rooms r' := by
  rw [setRoster]
  split
  · exact rosterOf_mapRoom room r' r hne rooms
  · exact rosterOf_appendRoom room r' r hne rooms

lemma rosterOf_mapRoom_self (room : String) (r : List String) :
    ∀ t : List (String × List String), (t.any fun p => p.1 == room) = true →
      rosterOf (t.map fun p => if p.1 == room then (room, r) else p) room
        = r := by
  intro t
  induction t with
  | nil => intro h; simp at h
  | cons x t ih =>
    intro h
    by_cases hx : x.1 = room
    · have hb : (x.1 == room) = true := by simp [hx]
      rw [List.map_cons, if_pos (by simp [hb]), rosterOf_cons,
        if_pos (by simp)]
    · have hb : (x.1 == room) = false := by simp [hx]
      rw [List.any_cons, hb, Bool.false_or] at h
      rw [List.map_cons, if_neg (by simp [hb]), rosterOf_cons,
        if_neg (by simp [hb])]
      exact ih h

lemma rosterOf_appendRoom_self (room : String) (r : List String) :
    ∀ t : List (String × List String),
      (t.any fun p => p.1 == room) = false →
      rosterOf (t ++ [(room, r)]) room = r := by
  intro t
  induction t with
  | nil => intro h; rw [List.nil_append, rosterOf_cons, if_pos (by simp)]
  | cons x t ih =>
    intro h
    rw [List.any_cons] at h
    have hb : (x.1 == room) = false := by
      cases hxb : (x.1 == room) <;> simp_all
    have ht : (t.any fun p => p.1 == room) = false := by
      cases htb : (t.any fun p => p.1 == room) <;> simp_all
    rw [List.cons_append, rosterOf_cons, if_neg (by simp [hb])]
    exact ih ht

lemma rosterOf_setRoster_self (room : String) (r : List String)
    (rooms : List (String × List String)) :
    rosterOf (setRoster rooms room r) room = r := by
  rw [setRoster]
  split
  · next h => exact rosterOf_mapRoom_self room r rooms h
  · next h =>
    exact rosterOf_appendRoom_self room r rooms (by cases hb : rooms.any fun p => p.1 == room <;> simp_all)



lemma readFlag_read_true (st : ServerState) (msg : Message)
    (h : msg.read = true) : readFlag st msg = (st, []) := by
  rw [readFlag, if_pos h]

lemma readFlag_read_false (st : ServerState) (msg : Message)
    (h : msg.read = false) :
    readFlag st msg =
      ({ st with messages := updateMsg st.messages { msg with read := true } },
       [Event.message_read msg.id msg.room]) := by
  rw [readFlag, if_neg (by simp [h])]

/-- C1 (amended): for a message with delete_on_read and not
require_all_read, an acknowledgment by the author leaves the message
persisted with its read flag set to true if it was false (emitting a
message_read event exactly when the flag was false), while an
acknowledgment by any other user deletes the message and broadcasts
exactly one delete_message event to its room. -/
theorem C1_thm (st : ServerState) (sid : Sid) (msg_id : Nat) (msg : Message)
    (hfind : findMsg st.messages msg_id = some msg)
    (hdor : msg.delete_on_read = true)
    (hrar : msg.require_all_read = false) :
    ((lookupSid st.users sid).getD "Unknown" = msg.username →
      (∃ m, findMsg (message_seen st sid msg_id).1.messages msg_id = some m ∧
        m.read = true) ∧
      (message_seen st sid msg_id).2 =
        (if msg.read then [] else [Event.message_read msg_id msg.room])) ∧
    ((lookupSid st.users sid).getD "Unknown" ≠ msg.username →
      findMsg (message_seen st sid msg_id).1.messages msg_id = none ∧
      (message_seen st sid msg_id).2 = [Event.delete_message msg_id msg.room]) := by
  have hid : msg.id = msg_id := findMsg_id hfind
  simp only [message_seen, hfind, recordReader_dor, hdor, recordReader_rar,
    hrar, if_true, Bool.false_eq_true, if_false]
  set u := (lookupSid st.users sid).getD "Unknown" with hu
  set msgR := recordReader msg u with hmsgR
  set st1 := (if msg.readers.contains u = true then st
              else { st with messages := updateMsg st.messages msgR }) with hst1
  have hRid : msgR.id = msg_id := by rw [hmsgR, recordReader_id, hid]
  have hpresent1 : findMsg st1.messages msg_id = some msg ∨
      findMsg st1.messages msg_id = some msgR := by
    rw [hst1]
    by_cases hc : msg.readers.contains u = true
    · rw [if_pos hc]; exact Or.inl hfind
    · rw [if_neg hc]
      exact Or.inr (findMsg_updateMsg msgR hRid hfind)
  constructor
  · intro hauthor
    have hb : (u == msgR.username) = true := by
      rw [hmsgR, recordReader_username]; simp [hauthor]
    rw [if_pos hb]
    by_cases hread : msg.read = true
    · rw [readFlag_read_true st1 msgR (by rw [hmsgR, recordReader_read]; exact hread)]
      refine ⟨?_, by rw [if_pos hread]⟩
      rcases hpresent1 with h1 | h1
      · exact ⟨msg, h1, hread⟩
      · exact ⟨msgR, h1, by rw [hmsgR, recordReader_read]; exact hread⟩
    · have hread' : msg.read = false := by
        cases hrb : msg.read
        · rfl
        · exact absurd hrb hread
      rw [readFlag_read_false st1 msgR
        (by rw [hmsgR, recordReader_read]; exact hread')]
      constructor
      · refine ⟨{ msgR with read := true }, ?_, rfl⟩
        rcases hpresent1 with h1 | h1 <;>
          exact findMsg_updateMsg _ (by simpa using hRid) h1
      · rw [if_neg (by simp [hread'])]
        simp only [hmsgR, recordReader_id, recordReader_room, hid]
  · intro hnon
    have hb : (u == msgR.username) = false := by
      rw [hmsgR, recordReader_username]; simp [hnon]
    rw [if_neg (by simp [hb])]
    refine ⟨findMsg_removeMsg _ _, ?_⟩
    simp only [hmsgR, recordReader_room]

/-- C2 (amended): for a message with delete_on_read and
require_all_read, an acknowledgment deletes the message if and only if the
current online roster of its room is non-empty and is a subset of the
updated readers set united with the author; in particular an empty roster
never triggers deletion. -/
theorem C2_thm (st : ServerState) (sid : Sid) (msg_id : Nat) (msg : Message)
    (hfind : findMsg st.messages msg_id = some msg)
    (hdor : msg.delete_on_read = true)
    (hrar : msg.require_all_read = true) :
    findMsg (message_seen st sid msg_id).1.messages msg_id = none ↔
      (rosterOf st.rooms_users msg.room ≠ [] ∧
        ∀ x ∈ rosterOf st.rooms_users msg.room,
          x ∈ (recordReader msg ((lookupSid st.users sid).getD "Unknown")).readers
            ∨ x = msg.username) := by
  have hid : msg.id = msg_id := findMsg_id hfind
  simp only [message_seen, hfind, recordReader_dor, hdor, recordReader_rar,
    hrar, if_true]
  set u := (lookupSid st.users sid).getD "Unknown" with hu
  set msgR := recordReader msg u with hmsgR
  set st1 := (if msg.readers.contains u = true then st
              else { st with messages := updateMsg st.messages msgR }) with hst1
  have hRid : msgR.id = msg_id := by rw [hmsgR, recordReader_id, hid]
  have hroom : st1.rooms_users = st.rooms_users := by
    rw [hst1]; split <;> rfl
  have hpresent1 : findMsg st1.messages msg_id = some msg ∨
      findMsg st1.messages msg_id = some msgR := by
    rw [hst1]
    by_cases hc : msg.readers.contains u = true
    · rw [if_pos hc]; exact Or.inl hfind
    · rw [if_neg hc]
      exact Or.inr (findMsg_updateMsg msgR hRid hfind)
  rw [hroom]
  set roster := rosterOf st.rooms_users msgR.room with hroster
  have hroomR : msgR.room = msg.room := by rw [hmsgR, recordReader_room]
  have hiff : ((!roster.isEmpty &&
      roster.all fun x => msgR.readers.contains x || x == msgR.username)
        = true) ↔
      (rosterOf st.rooms_users msg.room ≠ [] ∧
        ∀ x ∈ rosterOf st.rooms_users msg.room,
          x ∈ msgR.readers ∨ x = msg.username) := by
    rw [hroster, hroomR, hmsgR]
    simp [List.all_eq_true, List.isEmpty_iff]
  by_cases hcond : (!roster.isEmpty &&
      roster.all fun x => msgR.readers.contains x || x == msgR.username) = true
  · rw [if_pos hcond]
    exact iff_of_true (findMsg_removeMsg _ _) (hiff.mp hcond)
  · rw [if_neg hcond]
    refine iff_of_false ?_ (fun hp => hcond (hiff.mpr hp))
    by_cases hread : msgR.read = true
    · rw [readFlag_read_true st1 msgR hread]
      rcases hpresent1 with h1 | h1 <;> simp [h1]
    · rw [readFlag_read_false st1 msgR (by simpa using hread)]
      have : findMsg (updateMsg st1.messages { msgR with read := true }) msg_id
          = some { msgR with read := true } := by
        rcases hpresent1 with h1 | h1 <;>
          exact findMsg_updateMsg _ (by simpa using hRid) h1
      simp [this]

lemma recordReader_of_contains (m : Message) (u : String)
    (h : m.readers.contains u = true) : recordReader m u = m := by
  rw [recordReader, if_pos h]

lemma handle_message_safe (st : ServerState) (sid : Sid)
    (room content : String) (ems : Option Nat) (dor rar : Bool)
    (pt : Option String) (fu fn : Option String) (now : Nat)
    (hsafe : plaintextUnsafe pt = false) :
    handle_message st sid room content ems dor rar pt fu fn now =
      ({ st with
          messages := st.messages ++
            [{ id := st.next_id, room := room,
               username := (lookupSid st.users sid).getD "Unknown",
               content := content, file_url := fu, file_name := fn,
               timestamp := none, expires_at := computeExpiry ems now,
               delivered := true, read := false, readers := [],
               delete_on_read := dor, require_all_read := rar }],
          next_id := st.next_id + 1 },
       [Event.message_evt st.next_id room
          ((lookupSid st.users sid).getD "Unknown")]) := by
  simp only [handle_message, hsafe, Bool.false_eq_true, if_false]

lemma on_join_eq (st : ServerState) (sid : Sid) (u room : String) (now : Nat)
    (hguard : (u == "" || room == "") = false) :
    on_join st sid u room now =
      ({ st with room_joins := upsertJoin st.room_joins room u now,
                 users := setSid st.users sid u,
                 rooms_users := setRoster st.rooms_users room
                   (if (rosterOf st.rooms_users room).contains u = true
                    then rosterOf st.rooms_users room
                    else rosterOf st.rooms_users room ++ [u]) },
       (if (rosterOf st.rooms_users room).contains u = true then []
        else [Event.status room (u ++ " has entered the room.")])
         ++ [Event.online_users room
              (if (rosterOf st.rooms_users room).contains u = true
               then rosterOf st.rooms_users room
               else rosterOf st.rooms_users room ++ [u])]) := by
  simp only [on_join, hguard, Bool.false_eq_true, if_false]

lemma on_leave_users (st : ServerState) (sid : Sid) (u room : String)
    (hguard : (u == "" || room == "") = false) :
    (on_leave st sid u room).1.users = removeSid st.users sid := by
  simp only [on_leave, hguard, Bool.false_eq_true, if_false]
  split <;> rfl

lemma on_leave_messages (st : ServerState) (sid : Sid) (u room : String)
    (hguard : (u == "" || room == "") = false) :
    (on_leave st sid u room).1.messages = st.messages := by
  simp only [on_leave, hguard, Bool.false_eq_true, if_false]
  split <;> rfl

lemma on_leave_rooms_other (st : ServerState) (sid : Sid) (u room r' : String)
    (hguard : (u == "" || room == "") = false) (hne : r' ≠ room) :
    rosterOf (on_leave st sid u room).1.rooms_users r'
      = rosterOf st.rooms_users r' := by
  simp only [on_leave, hguard, Bool.false_eq_true, if_false]
  split
  · exact rosterOf_setRoster_other room r' _ hne st.rooms_users
  · rfl

/-- C3 (amended): for every run of the sweeper, the store keeps exactly
the messages that are not expired — every message whose expires_at is set
and at or before now is deleted — and no events are broadcast at all; in
particular a run with zero expired messages performs zero deletions (the
store is unchanged) and emits zero events. -/
theorem C3_thm (st : ServerState) (now : Nat) :
    (delete_expired_messages st now).1.messages
        = st.messages.filter (fun x => !(msgExpired x now)) ∧
    (delete_expired_messages st now).2 = [] ∧
    (∀ m ∈ st.messages, msgExpired m now = true →
        m ∉ (delete_expired_messages st now).1.messages) ∧
    ((∀ m ∈ st.messages, msgExpired m now = false) →
        (delete_expired_messages st now).1.messages = st.messages) := by
  refine ⟨rfl, rfl, ?_, ?_⟩
  · intro m _hm hexp hmem
    rw [delete_expired_messages] at hmem
    simp only [List.mem_filter, hexp] at hmem
    simp at hmem
  · intro h
    show st.messages.filter (fun x => !(msgExpired x now)) = st.messages
    rw [List.filter_eq_self]
    intro a ha
    simp [h a ha]

/-- C4 (code bug witness): every message persisted by the Create flow has
a null creation timestamp, because handle_message never assigns the
timestamp column and the column has no default. -/
theorem C4_thm (st : ServerState) (sid : Sid) (room content : String)
    (ems : Option Nat) (dor rar : Bool) (pt : Option String)
    (fu fn : Option String) (now : Nat)
    (hsafe : plaintextUnsafe pt = false) :
    ∃ m, (handle_message st sid room content ems dor rar pt fu fn now).1.messages
        = st.messages ++ [m] ∧ m.timestamp = none := by
  rw [handle_message_safe st sid room content ems dor rar pt fu fn now hsafe]
  exact ⟨_, rfl, rfl⟩

lemma survivor_of_readFlag (st1 : ServerState) (msgR m' : Message) (i : Nat)
    (hRid : msgR.id = i)
    (hpres : findMsg st1.messages i = some msgR)
    (hsurv : findMsg (readFlag st1 msgR).1.messages i = some m') :
    m'.readers = msgR.readers ∧ m'.username = msgR.username := by
  rw [readFlag] at hsurv
  split at hsurv
  · rw [hpres] at hsurv
    injection hsurv with h
    subst h
    exact ⟨rfl, rfl⟩
  · dsimp only at hsurv
    rw [findMsg_updateMsg { msgR with read := true } (by simpa using hRid)
      hpres] at hsurv
    injection hsurv with h
    rw [← h]
    exact ⟨rfl, rfl⟩

lemma message_seen_readers (st : ServerState) (sid : Sid) (msg_id : Nat)
    (msg m' : Message) (hfind : findMsg st.messages msg_id = some msg)
    (hsurv : findMsg (message_seen st sid msg_id).1.messages msg_id = some m') :
    m'.readers
        = (recordReader msg ((lookupSid st.users sid).getD "Unknown")).readers
      ∧ m'.username = msg.username := by
  have hid : msg.id = msg_id := findMsg_id hfind
  simp only [message_seen, hfind] at hsurv
  set u := (lookupSid st.users sid).getD "Unknown" with hu
  set msgR := recordReader msg u with hmsgR
  set st1 := (if msg.readers.contains u = true then st
              else { st with messages := updateMsg st.messages msgR }) with hst1
  have hRid : msgR.id = msg_id := by rw [hmsgR, recordReader_id, hid]
  have hpres : findMsg st1.messages msg_id = some msgR := by
    rw [hst1]
    by_cases hc : msg.readers.contains u = true
    · rw [if_pos hc, hmsgR, recordReader_of_contains msg u hc]
      exact hfind
    · rw [if_neg hc]
      exact findMsg_updateMsg msgR hRid hfind
  have husr : msgR.username = msg.username := by
    rw [hmsgR, recordReader_username]
  split at hsurv
  · split at hsurv
    · split at hsurv
      · dsimp only at hsurv
        rw [findMsg_removeMsg] at hsurv
        exact absurd hsurv (by simp)
      · have h := survivor_of_readFlag st1 msgR m' msg_id hRid hpres hsurv
        exact ⟨h.1, h.2.trans husr⟩
    · split at hsurv
      · have h := survivor_of_readFlag st1 msgR m' msg_id hRid hpres hsurv
        exact ⟨h.1, h.2.trans husr⟩
      · dsimp only at hsurv
        rw [findMsg_removeMsg] at hsurv
        exact absurd hsurv (by simp)
  · have h := survivor_of_readFlag st1 msgR m' msg_id hRid hpres hsurv
    exact ⟨h.1, h.2.trans husr⟩

/-- C5 (amended): for every message present in the store, the direct
mark-read request sets its read flag to true without changing its readers
set (even when that set is empty), while the Acknowledge flow, for every
acknowledging connection, records the acknowledging user in the readers of
any message that survives it. -/
theorem C5_thm (st : ServerState) (msg_id : Nat) (msg : Message)
    (hfind : findMsg st.messages msg_id = some msg) :
    findMsg (mark_read st msg_id).1.messages msg_id
        = some { msg with read := true } ∧
    (∀ sid m', findMsg (message_seen st sid msg_id).1.messages msg_id
          = some m' →
        m'.readers.contains ((lookupSid st.users sid).getD "Unknown")
          = true) := by
  constructor
  · simp only [mark_read, hfind]
    exact findMsg_updateMsg _ (by simpa using findMsg_id hfind) hfind
  · intro sid m' hsurv
    rw [(message_seen_readers st sid msg_id msg m' hfind hsurv).1]
    exact recordReader_contains msg _

/-- C6 (amended): a Create event supplying a non-zero expiry instant at
or before now persists the message with expires_at clamped to
now + 1 second, but a supplied instant of 0 (the epoch) is falsy in the
truthiness test and yields expires_at = none instead. -/
theorem C6_thm (st : ServerState) (sid : Sid) (room content : String)
    (v now : Nat) (dor rar : Bool) (pt : Option String)
    (fu fn : Option String) (hv : v ≠ 0) (hle : v ≤ now)
    (hsafe : plaintextUnsafe pt = false) :
    (∃ m, (handle_message st sid room content (some v) dor rar pt fu
          fn now).1.messages = st.messages ++ [m] ∧
        m.expires_at = some (now + 1000)) ∧
    (∃ m, (handle_message st sid room content (some 0) dor rar pt fu
          fn now).1.messages = st.messages ++ [m] ∧
        m.expires_at = none) := by
  have hexp1 : computeExpiry (some v) now = some (now + 1000) := by
    simp only [computeExpiry]
    rw [if_neg (by simp [hv]), if_pos (by simp [hle])]
  have hexp0 : computeExpiry (some 0) now = none := by
    simp [computeExpiry]
  constructor
  · rw [handle_message_safe st sid room content (some v) dor rar pt fu fn
      now hsafe]
    exact ⟨_, rfl, hexp1⟩
  · rw [handle_message_safe st sid room content (some 0) dor rar pt fu fn
      now hsafe]
    exact ⟨_, rfl, hexp0⟩

/-- C7 (amended): an acknowledgment records the acknowledging user in the
readers set regardless of authorship; in particular, when the author of a
message without require_all_read acknowledges it, the surviving message's
readers contains the author. -/
theorem C7_thm (st : ServerState) (sid : Sid) (msg_id : Nat) (msg : Message)
    (hfind : findMsg st.messages msg_id = some msg)
    (hrar : msg.require_all_read = false)
    (hauthor : (lookupSid st.users sid).getD "Unknown" = msg.username) :
    ∃ m', findMsg (message_seen st sid msg_id).1.messages msg_id = some m' ∧
      m'.readers.contains msg.username = true := by
  have hid : msg.id = msg_id := findMsg_id hfind
  simp only [message_seen, hfind]
  set u := (lookupSid st.users sid).getD "Unknown" with hu
  set msgR := recordReader msg u with hmsgR
  set st1 := (if msg.readers.contains u = true then st
              else { st with messages := updateMsg st.messages msgR }) with hst1
  have hRid : msgR.id = msg_id := by rw [hmsgR, recordReader_id, hid]
  have hpres : findMsg st1.messages msg_id = some msgR := by
    rw [hst1]
    by_cases hc : msg.readers.contains u = true
    · rw [if_pos hc, hmsgR, recordReader_of_contains msg u hc]
      exact hfind
    · rw [if_neg hc]
      exact findMsg_updateMsg msgR hRid hfind
  have hcontains : msgR.readers.contains msg.username = true := by
    rw [← hauthor, hmsgR]
    exact recordReader_contains msg u
  have main : ∃ m', findMsg (readFlag st1 msgR).1.messages msg_id = some m' ∧
      m'.readers.contains msg.username = true := by
    rw [readFlag]
    split
    · exact ⟨msgR, hpres, hcontains⟩
    · exact ⟨{ msgR with read := true },
        findMsg_updateMsg _ (by simpa using hRid) hpres, hcontains⟩
  split
  · rw [if_neg (by rw [hmsgR, recordReader_rar, hrar]; simp),
      if_pos (by rw [hmsgR, recordReader_username]; simp [hauthor])]
    exact main
  · exact main

/-- C8: a Create event whose supplied plaintext preview contains a
denylisted keyword (case-insensitively as a substring) leaves the state
unchanged — no message persisted, no message event — and the single
message_rejected event is the only observable effect. -/
theorem C8_thm (st : ServerState) (sid : Sid) (room content : String)
    (ems : Option Nat) (dor rar : Bool) (fu fn : Option String) (now : Nat)
    (pt kw : String) (hkw : kw ∈ unsafe_keywords)
    (hsub : listContains (lowerChars pt) kw.data = true) :
    handle_message st sid room content ems dor rar (some pt) fu fn now
      = (st, [Event.message_rejected "Message contains unsafe content"]) := by
  have hne : (pt == "") = false := by
    by_cases hp : pt = ""
    · subst hp
      exfalso
      fin_cases hkw <;> exact absurd hsub (by decide)
    · simp [hp]
  have hunsafe : is_content_safe pt = false := by
    rw [is_content_safe]
    have h : (unsafe_keywords.any fun k => listContains (lowerChars pt) k.data)
        = true := List.any_eq_true.mpr ⟨kw, hkw, hsub⟩
    rw [h]
    rfl
  have hpu : plaintextUnsafe (some pt) = true := by
    simp only [plaintextUnsafe, hne, hunsafe]
    rfl
  simp only [handle_message, hpu, if_true]

/-- C9: a second join with the same username and room, without an
intervening leave or disconnect, leaves the room roster unchanged and
emits only the online_users event — no second "entered the room" status
notice. -/
theorem C9_thm (st : ServerState) (sid sid2 : Sid) (u room : String)
    (now now2 : Nat) (hu : u ≠ "") (hr : room ≠ "") :
    rosterOf (on_join (on_join st sid u room now).1 sid2 u room
        now2).1.rooms_users room
      = rosterOf (on_join st sid u room now).1.rooms_users room ∧
    (on_join (on_join st sid u room now).1 sid2 u room now2).2
      = [Event.online_users room
          (rosterOf (on_join st sid u room now).1.rooms_users room)] := by
  have hguard : (u == "" || room == "") = false := by simp [hu, hr]
  have h1 : rosterOf (on_join st sid u room now).1.rooms_users room
      = (if (rosterOf st.rooms_users room).contains u = true
         then rosterOf st.rooms_users room
         else rosterOf st.rooms_users room ++ [u]) := by
    rw [on_join_eq st sid u room now hguard]
    exact rosterOf_setRoster_self room _ st.rooms_users
  have hc2 : (rosterOf (on_join st sid u room now).1.rooms_users room).contains
      u = true := by
    rw [h1]
    by_cases hc : (rosterOf st.rooms_users room).contains u = true
    · rw [if_pos hc]; exact hc
    · rw [if_neg hc]; exact contains_append_self _ u
  constructor
  · rw [on_join_eq _ sid2 u room now2 hguard, if_pos hc2]
    exact rosterOf_setRoster_self room _ _
  · rw [on_join_eq _ sid2 u room now2 hguard, if_pos hc2, if_pos hc2]
    rfl

/-- C10: a leave event for one room removes the sid→username binding
entirely, leaving other rooms' rosters untouched, so a subsequent message
event on the same connection is persisted with author "Unknown". -/
theorem C10_thm (st : ServerState) (sid : Sid) (u room : String)
    (hu : u ≠ "") (hr : room ≠ "") (r2 room2 content : String)
    (hr2 : r2 ≠ room) (ems : Option Nat) (dor rar : Bool)
    (fu fn : Option String) (now : Nat) :
    lookupSid (on_leave st sid u room).1.users sid = none ∧
    rosterOf (on_leave st sid u room).1.rooms_users r2
      = rosterOf st.rooms_users r2 ∧
    (∃ m, (handle_message (on_leave st sid u room).1 sid room2 content ems
        dor rar none fu fn now).1.messages
        = (on_leave st sid u room).1.messages ++ [m] ∧
      m.username = "Unknown") := by
  have hguard : (u == "" || room == "") = false := by simp [hu, hr]
  have husers : lookupSid (on_leave st sid u room).1.users sid = none := by
    rw [on_leave_users st sid u room hguard]
    exact lookupSid_removeSid st.users sid
  refine ⟨husers, on_leave_rooms_other st sid u room r2 hguard hr2, ?_⟩
  rw [handle_message_safe _ sid room2 content ems dor rar none fu fn now rfl]
  refine ⟨_, rfl, ?_⟩
  rw [husers]
  rfl


/-- C1 counterexample: at a concrete state, the author acknowledges their
own delete_on_read message; the message persists but its read flag changes
from false to true (and the author enters readers), contradicting the
claim that the read flag is unchanged. -/
theorem C1_counterexample :
    sampleMsg.read = false ∧
    findMsg (message_seen sampleState 7 1).1.messages 1
      = some { sampleMsg with read := true, readers := ["alice"] } := by
  decide

/-- C1 witness: instantiation of the amended claim — bob acknowledges
alice's ephemeral message, which is deleted with exactly one
delete_message event. -/
theorem C1_witness :
    findMsg (message_seen sampleState 8 1).1.messages 1 = none ∧
    (message_seen sampleState 8 1).2 = [Event.delete_message 1 "r"] :=
  (C1_thm sampleState 8 1 sampleMsg (by decide) (by decide) (by decide)).2
    (by decide)

/-- C2 counterexample: with an empty online roster (trivially a subset of
readers ∪ {author}), bob's acknowledgment does not delete the
require_all_read message, refuting the claimed "if and only if" in the
empty-roster case. -/
theorem C2_counterexample :
    rosterOf sampleStateAll.rooms_users "r" = [] ∧
    (∀ x ∈ rosterOf sampleStateAll.rooms_users "r",
      x ∈ (Message.readers { sampleMsgAll with readers := ["bob"] })
        ∨ x = "alice") ∧
    findMsg (message_seen sampleStateAll 8 1).1.messages 1 ≠ none := by
  decide

/-- C2 witness: instantiation of the amended claim at a state with alice
and bob online. -/
theorem C2_witness :
    (findMsg (message_seen sampleStateRoster 8 1).1.messages 1 = none ↔
      (rosterOf sampleStateRoster.rooms_users "r" ≠ [] ∧
        ∀ x ∈ rosterOf sampleStateRoster.rooms_users "r",
          x ∈ (recordReader sampleMsgAll
              ((lookupSid sampleStateRoster.users 8).getD "Unknown")).readers
            ∨ x = "alice")) :=
  C2_thm sampleStateRoster 8 1 sampleMsgAll (by decide) (by decide)
    (by decide)

/-- C3 counterexample: a sweeper run over a state with one expired message
deletes it yet emits zero events, refuting the claim that each deletion is
paired with a broadcast deletion event. -/
theorem C3_counterexample :
    sampleStateExp.messages ≠ [] ∧
    (delete_expired_messages sampleStateExp 100).1.messages = [] ∧
    (delete_expired_messages sampleStateExp 100).2 = [] := by
  decide

/-- C3 witness: instantiation of the amended claim — a run over the
expired-message state deletes the expired message with zero events, and a
run over a state with no expired messages leaves the store untouched with
zero events. -/
theorem C3_witness :
    sampleMsgExp ∉ (delete_expired_messages sampleStateExp 100).1.messages ∧
    (delete_expired_messages sampleStateExp 100).2 = [] ∧
    (delete_expired_messages sampleState 100).1.messages
        = sampleState.messages :=
  ⟨(C3_thm sampleStateExp 100).2.2.1 sampleMsgExp (by decide) (by decide),
   (C3_thm sampleStateExp 100).2.1,
   (C3_thm sampleState 100).2.2.2 (by decide)⟩

/-- C4 witness: a concrete Create persists a message whose timestamp is
null. -/
theorem C4_witness :
    ∃ m, (handle_message sampleState 7 "r" "c" none false false none none
        none 5000).1.messages = sampleState.messages ++ [m] ∧
      m.timestamp = none :=
  C4_thm sampleState 7 "r" "c" none false false none none none 5000 rfl

/-- C5 counterexample: mark_read on a message with an empty readers set
sets read = true while readers stays empty, refuting the claim that no
operation sets the flag while leaving readers unchanged and empty. -/
theorem C5_counterexample :
    sampleMsg.readers = [] ∧ sampleMsg.read = false ∧
    findMsg (mark_read sampleState 1).1.messages 1
      = some { sampleMsg with read := true } := by
  decide

/-- C5 witness: instantiation of the amended claim — mark_read leaves
readers empty, while the surviving message of alice's acknowledgment
contains alice in its readers. -/
theorem C5_witness :
    findMsg (mark_read sampleState 1).1.messages 1
        = some { sampleMsg with read := true } ∧
    (Message.readers { sampleMsg with read := true, readers := ["alice"] }).contains
        ((lookupSid sampleState.users 7).getD "Unknown") = true :=
  ⟨(C5_thm sampleState 1 sampleMsg (by decide)).1,
   (C5_thm sampleState 1 sampleMsg (by decide)).2 7
     { sampleMsg with read := true, readers := ["alice"] } (by decide)⟩

/-- C6 counterexample: a Create supplying expiry instant 0 (the epoch, a
past instant) persists the message with expires_at = none rather than the
claimed now + 1 second. -/
theorem C6_counterexample :
    (handle_message sampleState 7 "r" "c" (some 0) false false none none
        none 5000).1.messages
      = sampleState.messages ++
        [{ id := 2, room := "r", username := "alice", content := "c",
           file_url := none, file_name := none, timestamp := none,
           expires_at := none, delivered := true, read := false,
           readers := [], delete_on_read := false,
           require_all_read := false }] ∧
    (none : Option Nat) ≠ some (5000 + 1000) := by
  decide

/-- C6 witness: instantiation of the amended claim — a non-zero past
instant is clamped to now + 1s, a zero instant yields no expiry. -/
theorem C6_witness :
    (∃ m, (handle_message sampleState 7 "r" "c" (some 3000) false false
        none none none 5000).1.messages = sampleState.messages ++ [m] ∧
      m.expires_at = some (5000 + 1000)) ∧
    (∃ m, (handle_message sampleState 7 "r" "c" (some 0) false false none
        none none 5000).1.messages = sampleState.messages ++ [m] ∧
      m.expires_at = none) :=
  C6_thm sampleState 7 "r" "c" 3000 5000 false false none none none
    (by decide) (by decide) rfl

/-- C7 counterexample: after alice acknowledges her own message, the
persisted readers set is ["alice"] — it contains the author, refuting the
claimed author-exclusion invariant. -/
theorem C7_counterexample :
    sampleMsg.username = "alice" ∧
    findMsg (message_seen sampleState 7 1).1.messages 1
      = some { sampleMsg with read := true, readers := ["alice"] } ∧
    "alice" ∈ (Message.readers
      { sampleMsg with read := true, readers := ["alice"] }) := by
  decide

/-- C7 witness: instantiation of the amended claim at the sample state. -/
theorem C7_witness :
    ∃ m, findMsg (message_seen sampleState 7 1).1.messages 1 = some m ∧
      m.readers.contains "alice" = true :=
  C7_thm sampleState 7 1 sampleMsg (by decide) (by decide) (by decide)

/-- C8 witness: a plaintext containing "PHISHING" is rejected with the
state unchanged and only the message_rejected event emitted. -/
theorem C8_witness :
    handle_message sampleState 7 "r" "c" none false false
        (some "Check this PHISHING link") none none 5000
      = (sampleState,
         [Event.message_rejected "Message contains unsafe content"]) :=
  C8_thm sampleState 7 "r" "c" none false false none none 5000
    "Check this PHISHING link" "phishing" (by decide) (by decide)

/-- C9 witness: joining room "r" twice as alice leaves the roster
unchanged and the second join emits only the online_users event. -/
theorem C9_witness :
    rosterOf (on_join (on_join sampleState0 7 "alice" "r" 10).1 9 "alice"
        "r" 20).1.rooms_users "r"
      = rosterOf (on_join sampleState0 7 "alice" "r" 10).1.rooms_users "r" ∧
    (on_join (on_join sampleState0 7 "alice" "r" 10).1 9 "alice" "r" 20).2
      = [Event.online_users "r"
          (rosterOf (on_join sampleState0 7 "alice" "r" 10).1.rooms_users
            "r")] :=
  C9_thm sampleState0 7 9 "alice" "r" 10 20 (by decide) (by decide)

/-- C10 witness: alice leaves room "r"; the binding of sid 7 is gone, room
"s" still lists alice, and a subsequent message on sid 7 is persisted with
author "Unknown". -/
theorem C10_witness :
    lookupSid (on_leave sampleState2rooms 7 "alice" "r").1.users 7 = none ∧
    rosterOf (on_leave sampleState2rooms 7 "alice" "r").1.rooms_users "s"
      = rosterOf sampleState2rooms.rooms_users "s" ∧
    (∃ m, (handle_message (on_leave sampleState2rooms 7 "alice" "r").1 7
        "s" "c" none false false none none none 99).1.messages
        = (on_leave sampleState2rooms 7 "alice" "r").1.messages ++ [m] ∧
      m.username = "Unknown") :=
  C10_thm sampleState2rooms 7 "alice" "r" (by decide) (by decide) "s" "s"
    "c" (by decide) none false false none none 99

end E2EE
